import Mathlib

/-!
Verification development for the `rust-mqtt-exploration` repository.

The embedding below translates the capture-session core of
`src/examples/mqtt-explorer-rs` (main.rs, mqtt_config.rs) into Lean:

* `Value` models `serde_json::Value` as far as the consume loop inspects it
  (`as_array`, `as_object`, object key count).
* `Config` / `Topics` model `mqtt_config.rs`; file opening and YAML parsing
  are external effects, passed in as parameters.
* `LoopState`, `processMsg`, `reconnectLoop` and `consumeRun` model the
  consume-thread closure of `main.rs` (lines 121-165): the mutable state
  `(res, size, total_tags, rconn_attempt)`, per-message processing with the
  `unwrap` panics, the blocking reconnect `while let` loop, and the per-item
  deadline check.
* `Output` / `mkOutput` model building the statistics row (main.rs 184-192),
  whose `u64` divisions panic when `duration.as_secs()` is zero.

Rust panics (`unwrap`, `expect`, integer division by zero) are modelled as
`Except`/`Option` error outcomes carrying the state at the panic point.
-/

/-- Model of `serde_json::Value`: JSON-like trees. Numbers are modelled as
integers, which is enough for everything the loop inspects. -/
inductive Value where
  | null
  | bool (b : Bool)
  | num (n : Int)
  | str (s : String)
  | arr (elems : List Value)
  | obj (fields : List (String × Value))

/-- `serde_json::Value::as_array`: `some` exactly on arrays. -/
def Value.asArray : Value → Option (List Value)
  | .arr elems => some elems
  | _ => none

/-- `serde_json::Value::as_object`: `some` exactly on objects. The Rust map's
`len()` is the length of the field list here. -/
def Value.asObject : Value → Option (List (String × Value))
  | .obj fields => some fields
  | _ => none

/-- The distinct ways the program can panic (Rust `unwrap`/`expect`/division),
as observed in `main.rs` and `mqtt_config.rs`. -/
inductive Panic where
  | decodeError
  | notArray
  | elemNotObj
  | couldNotOpenFile
  | divByZero
deriving DecidableEq

/-- `mqtt_config.rs` `Topics`: one subscribed topic name with its QoS. -/
structure Topics where
  name : String
  qos : Int
deriving DecidableEq

/-- `mqtt_config.rs` `Config`. -/
structure Config where
  hostname : String
  client_id : String
  qos : Int
  username : String
  password : String
  subscribed_topics : List Topics
deriving DecidableEq

/-- `Config::new` (mqtt_config.rs lines 21-39): the built-in default
configuration used as the fallback. -/
def Config.new : Config :=
  { hostname := "mqtt://localhost:1883"
    client_id := "TEMP_CLIENT"
    qos := 0
    username := "TEMP_USER"
    password := "temppassword"
    subscribed_topics := [⟨"topic_1", 0⟩, ⟨"topic_2", 0⟩] }

/-- `Config::load` (mqtt_config.rs lines 41-45). The filesystem and the YAML
deserializer are external: `openResult` is `none` when `File::open` fails
(the `.expect` then panics with "Could not open file."), and `parse` models
`serde_yml::from_reader`, returning `none` on a parse error, in which case
`unwrap_or_else` substitutes `Config::new`. -/
def Config.load (openResult : Option String) (parse : String → Option Config) :
    Except Panic Config :=
  match openResult with
  | none => .error .couldNotOpenFile
  | some content =>
    match parse content with
    | some cfg => .ok cfg
    | none => .ok Config.new

/-- `Config::parse_mqtt_topics` (mqtt_config.rs lines 47-55): split the topic
list into parallel name and QoS sequences. -/
def Config.parse_mqtt_topics (c : Config) : List String × List Int :=
  (c.subscribed_topics.map (fun x => x.name), c.subscribed_topics.map (fun x => x.qos))

/-- C3 counterexample: loading an absent config source panics
("Could not open file.") instead of falling back to the default and
returning normally. -/
theorem absent_config_aborts_cex :
    Config.load none (fun _ => none) = Except.error Panic.couldNotOpenFile := rfl

/-- C3 (amended): only a source that opens but fails to parse falls back to
the built-in default; the default subscribes the pair `topic_1`, `topic_2`
at QoS 0. An absent source aborts by panic (see the counterexample). -/
theorem malformed_config_falls_back_to_default_topics (content : String)
    (parse : String → Option Config) (h : parse content = none) :
    Config.load (some content) parse = Except.ok Config.new ∧
    Config.new.subscribed_topics = [⟨"topic_1", 0⟩, ⟨"topic_2", 0⟩] ∧
    Config.new.parse_mqtt_topics = (["topic_1", "topic_2"], [0, 0]) := by
  refine ⟨?_, rfl, rfl⟩
  simp only [Config.load, h]

theorem malformed_config_falls_back_to_default_topics_witness :
    Config.load (some "qos: [") (fun _ => none) = Except.ok Config.new ∧
    Config.new.subscribed_topics = [⟨"topic_1", 0⟩, ⟨"topic_2", 0⟩] ∧
    Config.new.parse_mqtt_topics = (["topic_1", "topic_2"], [0, 0]) :=
  malformed_config_falls_back_to_default_topics "qos: [" (fun _ => none) rfl

/-- C10: when the file opens but parsing fails, the fallback replaces the
entire configuration with `Config::new` — hostname, client id, credentials
and all — whatever the file contained. -/
theorem parse_failure_replaces_entire_config (content : String)
    (parse : String → Option Config) (h : parse content = none) :
    Config.load (some content) parse = Except.ok Config.new ∧
    Config.new.hostname = "mqtt://localhost:1883" ∧
    Config.new.client_id = "TEMP_CLIENT" ∧
    Config.new.username = "TEMP_USER" ∧
    Config.new.password = "temppassword" ∧
    Config.new.qos = 0 := by
  refine ⟨?_, rfl, rfl, rfl, rfl, rfl⟩
  simp only [Config.load, h]

theorem parse_failure_replaces_entire_config_witness :
    Config.load (some "hostname: mqtt://broker:8883") (fun _ => none) = Except.ok Config.new ∧
    Config.new.hostname = "mqtt://localhost:1883" ∧
    Config.new.client_id = "TEMP_CLIENT" ∧
    Config.new.username = "TEMP_USER" ∧
    Config.new.password = "temppassword" ∧
    Config.new.qos = 0 :=
  parse_failure_replaces_entire_config "hostname: mqtt://broker:8883" (fun _ => none) rfl

/-- The consume thread's mutable state (main.rs lines 116-124): the captured
set `res`, the byte total `size`, the nested-tag total `total_tags`, and the
reconnect attempt counter `rconn_attempt`. -/
structure LoopState where
  res : List Value
  size : Nat
  total_tags : Nat
  rconn_attempt : Nat

/-- The initial state of the consume thread: empty captured set, zero
counters (main.rs lines 116-118 and 124). -/
def initState : LoopState := ⟨[], 0, 0, 0⟩

/-- The reconnect `while let` loop (main.rs lines 144-148).  `attempts` lists
the outcomes of successive `client.reconnect()` calls (`true` = `Ok`).  On
each `Err` outcome the counter is incremented, the new counter value is
logged, and the thread sleeps 1 second; on the first `Ok` the loop exits.
Returns `(final counter, logged counter values, sleep durations in seconds)`,
or `none` when no modelled attempt succeeds (the loop is still running). -/
def reconnectLoop : List Bool → Nat → Option (Nat × List Nat × List Nat)
  | [], _ => none
  | ok :: rest, rconn_attempt =>
    if ok then some (rconn_attempt, [], [])
    else
      match reconnectLoop rest (rconn_attempt + 1) with
      | none => none
      | some (r, logs, sleeps) => some (r, (rconn_attempt + 1) :: logs, 1 :: sleeps)

/-- The `for_each` over the decoded array (main.rs lines 136-140): add each
element's `as_object().unwrap().len()` to the running tag total.  A
non-object element panics (`unwrap` on `None`); the error carries the total
accumulated up to the offending element. -/
def tagFold : Nat → List Value → Except Nat Nat
  | acc, [] => .ok acc
  | acc, x :: xs =>
    match x.asObject with
    | some fields => tagFold (acc + fields.length) xs
    | none => .error acc

/-- Processing one received message (main.rs lines 126-140).  `decode` models
`serde_json::from_slice` on the payload bytes.  The byte total is updated
first (lines 128-129); a decode failure then panics (`unwrap`, line 132);
the decoded value is pushed (line 133) before `as_array().unwrap()`
(line 136), so a non-array value panics with the value already captured; a
non-object array element panics inside the `for_each` with a partial tag sum.
Errors carry the state at the panic point. -/
def processMsg (decode : List Nat → Option Value) (st : LoopState)
    (payload : List Nat) : Except (Panic × LoopState) LoopState :=
  let st1 : LoopState := { st with size := st.size + payload.length }
  match decode payload with
  | none => .error (.decodeError, st1)
  | some v =>
    let st2 : LoopState := { st1 with res := st1.res ++ [v] }
    match v.asArray with
    | none => .error (.notArray, st2)
    | some xs =>
      match tagFold st2.total_tags xs with
      | .error acc => .error (.elemNotObj, { st2 with total_tags := acc })
      | .ok acc => .ok { st2 with total_tags := acc }

/-- One item surfaced by `rx_queue.iter()` (main.rs line 125): `Some(msg)` is
a received message with its payload bytes; `None` is the connection-loss
signal, carrying the outcomes of the reconnect attempts it triggers. -/
inductive Item where
  | msg (payload : List Nat)
  | loss (attempts : List Bool)

/-- Result of handling one item inside the loop body. -/
inductive StepRes where
  | ok (st : LoopState)
  | panicked (p : Panic) (st : LoopState)
  | hung (st : LoopState)

/-- The `if let Some(mqttmsg) ... else ...` item dispatch (main.rs
lines 126-149): a message goes through `processMsg`; a loss signal runs the
reconnect loop, `hung` when no modelled reconnect attempt succeeds. -/
def procItem (decode : List Nat → Option Value) (st : LoopState) : Item → StepRes
  | .msg payload =>
    match processMsg decode st payload with
    | .ok st' => .ok st'
    | .error (p, st') => .panicked p st'
  | .loss attempts =>
    match reconnectLoop attempts st.rconn_attempt with
    | none => .hung { st with rconn_attempt := st.rconn_attempt + attempts.length }
    | some (r, _, _) => .ok { st with rconn_attempt := r }

/-- How a run of the consume loop ends: `done` via the deadline break or the
stream ending, `panicked` via an `unwrap` panic, `hung` inside a reconnect
loop that never succeeds.  Each carries the final state. -/
inductive Outcome where
  | done (st : LoopState)
  | panicked (p : Panic) (st : LoopState)
  | hung (st : LoopState)

/-- The state carried by an outcome. -/
def stateOf : Outcome → LoopState
  | .done st => st
  | .panicked _ st => st
  | .hung st => st

/-- The `for mqttmsg in rx_queue.iter()` loop (main.rs lines 125-161).  Each
stream element pairs an item with the elapsed wall-clock time observed at the
post-item deadline check (line 150); the loop breaks when that elapsed time
exceeds `deadline` (lines 151-153, `elapsed > Duration::from_secs(...)`).
Returns the outcome and the list of processed stream elements. -/
def consumeRun (decode : List Nat → Option Value) (deadline : Nat) :
    LoopState → List (Item × Nat) → Outcome × List (Item × Nat)
  | st, [] => (.done st, [])
  | st, (it, t) :: rest =>
    match procItem decode st it with
    | .panicked p st' => (.panicked p st', [(it, t)])
    | .hung st' => (.hung st', [(it, t)])
    | .ok st' =>
      if deadline < t then (.done st', [(it, t)])
      else
        let r := consumeRun decode deadline st' rest
        (r.1, (it, t) :: r.2)

/-- Unfolding lemma: the loop on an empty stream returns the state as is. -/
theorem consumeRun_nil (decode : List Nat → Option Value) (dl : Nat) (st : LoopState) :
    consumeRun decode dl st [] = (.done st, []) := rfl

/-- Unfolding lemma: one iteration of the loop body. -/
theorem consumeRun_cons (decode : List Nat → Option Value) (dl : Nat) (st : LoopState)
    (it : Item) (t : Nat) (rest : List (Item × Nat)) :
    consumeRun decode dl st ((it, t) :: rest) =
      match procItem decode st it with
      | .panicked p st' => (.panicked p st', [(it, t)])
      | .hung st' => (.hung st', [(it, t)])
      | .ok st' =>
        if dl < t then (.done st', [(it, t)])
        else ((consumeRun decode dl st' rest).1, (it, t) :: (consumeRun decode dl st' rest).2) :=
  rfl

/-- A reconnect call sequence of `n` failures then a success: the loop exits
with the counter advanced by `n`, having logged the counter values
`r+1, …, r+n` and slept 1 second after each failure. -/
theorem reconnectLoop_replicate (n : Nat) (rest : List Bool) (r : Nat) :
    reconnectLoop (List.replicate n false ++ true :: rest) r =
      some (r + n, (List.range n).map (fun i => r + 1 + i), List.replicate n 1) := by
  induction n generalizing r with
  | zero => simp [reconnectLoop]
  | succ n ih =>
    rw [List.replicate_succ, List.cons_append]
    show (match reconnectLoop (List.replicate n false ++ true :: rest) (r + 1) with
      | none => none
      | some (a, logs, sleeps) => some (a, (r + 1) :: logs, 1 :: sleeps)) = _
    rw [ih (r + 1)]
    show some (r + 1 + n, (r + 1) :: (List.range n).map (fun i => r + 1 + 1 + i),
      1 :: List.replicate n 1) = _
    have h1 : r + 1 + n = r + (n + 1) := by omega
    have h2 : (r + 1) :: (List.range n).map (fun i => r + 1 + 1 + i) =
        (List.range (n + 1)).map (fun i => r + 1 + i) := by
      rw [List.range_succ_eq_map, List.map_cons, List.map_map]
      have : ((fun i => r + 1 + i) ∘ Nat.succ) = fun i => r + 1 + 1 + i := by
        funext i
        simp [Function.comp]
        omega
      rw [this]
    rw [h1, h2, ← List.replicate_succ]

/-- A reconnect call sequence that is all failures: the loop has not exited
(it neither returns nor produces an error; it keeps retrying). -/
theorem reconnectLoop_allFalse (m r : Nat) :
    reconnectLoop (List.replicate m false) r = none := by
  induction m generalizing r with
  | zero => rfl
  | succ m ih =>
    rw [List.replicate_succ]
    show (match reconnectLoop (List.replicate m false) (r + 1) with
      | none => none
      | some (a, logs, sleeps) => some (a, (r + 1) :: logs, 1 :: sleeps)) = none
    rw [ih (r + 1)]

/-- C7: the reconnect operation retries indefinitely with a fixed 1-second
delay, logging each failed attempt with an incrementing counter
(`r+1, …, r+n`), has no upper bound on attempts (the first conjunct holds
for every `n`), and returns only on success: after any number `m` of
failures with no success it has not returned at all, and in particular it
never returns with an error. -/
theorem reconnect_retry_policy (n m r : Nat) (rest : List Bool) :
    reconnectLoop (List.replicate n false ++ true :: rest) r =
      some (r + n, (List.range n).map (fun i => r + 1 + i), List.replicate n 1) ∧
    reconnectLoop (List.replicate m false) r = none :=
  ⟨reconnectLoop_replicate n rest r, reconnectLoop_allFalse m r⟩

/-- C8: the deadline comparison happens once, after each processed item
(message or loss signal): every processed stream element except possibly the
last was observed at or under the deadline, so at most one processed element
— necessarily the last — lies past the deadline. -/
theorem deadline_checked_once_per_item (decode : List Nat → Option Value)
    (dl : Nat) (st : LoopState) (items : List (Item × Nat)) :
    (∀ x ∈ (consumeRun decode dl st items).2.dropLast, x.2 ≤ dl) ∧
    (consumeRun decode dl st items).2.countP (fun x => decide (dl < x.2)) ≤ 1 := by
  induction items generalizing st with
  | nil => simp [consumeRun_nil]
  | cons hd rest ih =>
    obtain ⟨it, t⟩ := hd
    rw [consumeRun_cons]
    cases hstep : procItem decode st it with
    | panicked p st' =>
      exact ⟨by intro x hx; simp at hx, by simp [List.countP_cons]; split <;> simp⟩
    | hung st' =>
      exact ⟨by intro x hx; simp at hx, by simp [List.countP_cons]; split <;> simp⟩
    | ok st' =>
      by_cases hdl : dl < t
      · simp only [if_pos hdl]
        exact ⟨by intro x hx; simp at hx, by simp [List.countP_cons]; split <;> simp⟩
      · simp only [if_neg hdl]
        refine ⟨?_, ?_⟩
        · intro x hx
          rcases hc : (consumeRun decode dl st' rest).2 with _ | ⟨y, ys⟩
          · rw [hc] at hx
            simp at hx
          · rw [hc, List.dropLast_cons₂] at hx
            rcases List.mem_cons.mp hx with h | h
            · subst h
              exact Nat.le_of_not_lt hdl
            · have hmem : x ∈ (consumeRun decode dl st' rest).2.dropLast := by
                rw [hc]
                exact h
              exact (ih st').1 x hmem
        · rw [List.countP_cons]
          simpa [hdl] using (ih st').2

/-- The payload byte length contributed by one item: `size_of_val` of the
payload slice for a message (main.rs line 128), nothing for a loss signal. -/
def payloadBytes : Item → Nat
  | .msg payload => payload.length
  | .loss _ => 0

/-- Total payload bytes over a list of processed stream elements. -/
def processedBytes (pr : List (Item × Nat)) : Nat :=
  (pr.map (fun x => payloadBytes x.1)).sum

theorem processedBytes_nil : processedBytes [] = 0 := rfl

theorem processedBytes_cons (x : Item × Nat) (l : List (Item × Nat)) :
    processedBytes (x :: l) = payloadBytes x.1 + processedBytes l := by
  simp [processedBytes]

/-- `size += s` happens before decoding (main.rs lines 128-129), so a
successful `processMsg` grows the byte total by the payload length. -/
theorem processMsg_size_ok (decode : List Nat → Option Value) (st : LoopState)
    (p : List Nat) (st' : LoopState) (h : processMsg decode st p = .ok st') :
    st'.size = st.size + p.length := by
  simp only [processMsg] at h
  split at h
  · simp at h
  · split at h
    · simp at h
    · split at h
      · simp at h
      · injection h with h
        rw [← h]

/-- The same holds for every panic outcome of `processMsg`: the state at the
panic point already counts the payload's bytes. -/
theorem processMsg_size_error (decode : List Nat → Option Value) (st : LoopState)
    (p : List Nat) (pa : Panic) (st' : LoopState)
    (h : processMsg decode st p = .error (pa, st')) :
    st'.size = st.size + p.length := by
  simp only [processMsg] at h
  split at h
  · injection h with h
    simp only [Prod.mk.injEq] at h
    rw [← h.2]
  · split at h
    · injection h with h
      simp only [Prod.mk.injEq] at h
      rw [← h.2]
    · split at h
      · injection h with h
        simp only [Prod.mk.injEq] at h
        rw [← h.2]
      · simp at h

/-- C5: whatever the run's outcome — completed, panicked mid-message, or
stuck reconnecting — the byte total in the outcome's state equals the
initial total plus the payload byte lengths of every message processed,
excluding nothing: a message whose decode fails still has its bytes counted,
because the size update precedes the decode `unwrap`. -/
theorem totalBytes_equals_sum_of_payload_lengths (decode : List Nat → Option Value)
    (dl : Nat) (st : LoopState) (items : List (Item × Nat)) :
    (stateOf (consumeRun decode dl st items).1).size =
      st.size + processedBytes (consumeRun decode dl st items).2 := by
  induction items generalizing st with
  | nil => simp [consumeRun_nil, stateOf, processedBytes]
  | cons hd rest ih =>
    obtain ⟨it, t⟩ := hd
    rw [consumeRun_cons]
    cases it with
    | msg p =>
      cases hm : processMsg decode st p with
      | error e =>
        obtain ⟨pa, st'⟩ := e
        have hsz := processMsg_size_error decode st p pa st' hm
        simp only [procItem, hm]
        simp [stateOf, processedBytes, payloadBytes, hsz]
      | ok st' =>
        have hsz := processMsg_size_ok decode st p st' hm
        simp only [procItem, hm]
        by_cases hdl : dl < t
        · simp only [if_pos hdl]
          simp [stateOf, processedBytes, payloadBytes, hsz]
        · simp only [if_neg hdl]
          rw [processedBytes_cons, ih st', hsz]
          simp [payloadBytes]
          omega
    | loss attempts =>
      simp only [procItem]
      cases hr : reconnectLoop attempts st.rconn_attempt with
      | none =>
        simp [stateOf, processedBytes, payloadBytes]
      | some out =>
        obtain ⟨r, logs, sleeps⟩ := out
        by_cases hdl : dl < t
        · simp only [if_pos hdl]
          simp [stateOf, processedBytes, payloadBytes]
        · simp only [if_neg hdl]
          rw [processedBytes_cons, ih { st with rconn_attempt := r }]
          simp [payloadBytes]

/-- The key count one array element contributes: the object's size, 0 for a
non-object (which in the source would panic instead). -/
def objLen : Value → Nat
  | .obj fields => fields.length
  | _ => 0

/-- Sum of the key counts of the elements of a decoded array. -/
def tagSum (xs : List Value) : Nat := (xs.map objLen).sum

theorem tagSum_cons (x : Value) (xs : List Value) :
    tagSum (x :: xs) = objLen x + tagSum xs := by
  simp [tagSum]

theorem objLen_eq_of_asObject (x : Value) (fields : List (String × Value))
    (h : x.asObject = some fields) : objLen x = fields.length := by
  cases x <;> simp_all [Value.asObject, objLen]

/-- When every element of the array is an object, the tag fold succeeds and
adds the sum of the key counts. -/
theorem tagFold_allObj (xs : List Value) (acc : Nat)
    (h : xs.all (fun x => x.asObject.isSome) = true) :
    tagFold acc xs = .ok (acc + tagSum xs) := by
  induction xs generalizing acc with
  | nil => simp [tagFold, tagSum]
  | cons x xs ih =>
    simp only [List.all_cons, Bool.and_eq_true] at h
    obtain ⟨hx, hxs⟩ := h
    cases hv : x.asObject with
    | none => rw [hv] at hx; simp at hx
    | some fields =>
      simp only [tagFold, hv]
      rw [ih (acc + fields.length) hxs, tagSum_cons, objLen_eq_of_asObject x fields hv]
      congr 1
      omega

/-- Decode succeeding with an array of objects (main.rs lines 132-140): the
record is appended, the bytes counted, and the key counts summed into
`total_tags`. -/
theorem processMsg_good (decode : List Nat → Option Value) (st : LoopState)
    (p : List Nat) (v : Value) (xs : List Value)
    (hv : decode p = some v) (hxs : v.asArray = some xs)
    (hobj : xs.all (fun x => x.asObject.isSome) = true) :
    processMsg decode st p = .ok
      { res := st.res ++ [v], size := st.size + p.length,
        total_tags := st.total_tags + tagSum xs, rconn_attempt := st.rconn_attempt } := by
  simp only [processMsg, hv, hxs]
  rw [tagFold_allObj xs st.total_tags hobj]

/-- Decode succeeding with a non-array value: `as_array().unwrap()` panics
after the value was already pushed and the bytes counted. -/
theorem processMsg_notArray (decode : List Nat → Option Value) (st : LoopState)
    (p : List Nat) (v : Value) (hv : decode p = some v) (hxs : v.asArray = none) :
    processMsg decode st p = .error (.notArray,
      { res := st.res ++ [v], size := st.size + p.length,
        total_tags := st.total_tags, rconn_attempt := st.rconn_attempt }) := by
  simp only [processMsg, hv, hxs]

/-- Decode failing: `serde_json::from_slice(...).unwrap()` panics, with the
bytes already counted and the captured set untouched. -/
theorem processMsg_decodeError (decode : List Nat → Option Value) (st : LoopState)
    (p : List Nat) (h : decode p = none) :
    processMsg decode st p =
      .error (.decodeError, { st with size := st.size + p.length }) := by
  simp only [processMsg, h]

/-- C9 counterexample: a decoded value that is NOT a sequence of key-value
groups (an array containing a non-object element) does not leave
`totalTagCount` unchanged, nor does the loop carry on with it captured: the
`for_each` adds the key counts of the leading object elements (here 1) and
then panics on the non-object element. -/
theorem non_object_element_mutates_tags_cex :
    processMsg (fun _ => some (Value.arr [Value.obj [("a", Value.null)], Value.num 3]))
        initState [9] =
      Except.error (Panic.elemNotObj,
        ⟨[Value.arr [Value.obj [("a", Value.null)], Value.num 3]], 1, 1, 0⟩) := rfl

/-- C9 (amended): on decode success the record is appended to the captured
set and `totalBytes` grows by the payload byte length; if the value is an
array whose elements are all objects, the sum of their key counts is added
to `totalTagCount`; a non-array value instead panics the thread after the
record was appended and the bytes counted, leaving the tag total
unchanged. -/
theorem decode_success_capture_and_tags (decode : List Nat → Option Value)
    (st : LoopState) (p : List Nat) (v : Value) (hv : decode p = some v) :
    (∀ xs, v.asArray = some xs → xs.all (fun x => x.asObject.isSome) = true →
      processMsg decode st p = .ok
        { res := st.res ++ [v], size := st.size + p.length,
          total_tags := st.total_tags + tagSum xs, rconn_attempt := st.rconn_attempt }) ∧
    (v.asArray = none →
      processMsg decode st p = .error (.notArray,
        { res := st.res ++ [v], size := st.size + p.length,
          total_tags := st.total_tags, rconn_attempt := st.rconn_attempt })) :=
  ⟨fun xs hxs hobj => processMsg_good decode st p v xs hv hxs hobj,
   fun hxs => processMsg_notArray decode st p v hv hxs⟩

theorem decode_success_capture_and_tags_witness :
    processMsg (fun _ => some (Value.arr [Value.obj [("a", Value.null), ("b", Value.num 1)]]))
        initState [1, 2] =
      Except.ok
        { res := initState.res ++ [Value.arr [Value.obj [("a", Value.null), ("b", Value.num 1)]]],
          size := initState.size + [1, 2].length,
          total_tags := initState.total_tags + tagSum [Value.obj [("a", Value.null), ("b", Value.num 1)]],
          rconn_attempt := initState.rconn_attempt } :=
  (decode_success_capture_and_tags
      (fun _ => some (Value.arr [Value.obj [("a", Value.null), ("b", Value.num 1)]]))
      initState [1, 2] (Value.arr [Value.obj [("a", Value.null), ("b", Value.num 1)]]) rfl).1
    [Value.obj [("a", Value.null), ("b", Value.num 1)]] rfl (by decide)

/-- C1 counterexample: with a payload that fails to decode, the loop does
not drop the message and continue: the second stream element is never
processed and the run ends in a `decodeError` panic (with the failing
message's bytes nevertheless counted). -/
theorem decode_failure_aborts_loop_cex :
    (consumeRun (fun _ => none) 10 initState
        [(Item.msg [7], 0), (Item.msg [8], 1)]).2.length = 1 ∧
    (consumeRun (fun _ => none) 10 initState
        [(Item.msg [7], 0), (Item.msg [8], 1)]).1 =
      Outcome.panicked Panic.decodeError ⟨[], 1, 0, 0⟩ :=
  ⟨rfl, rfl⟩

/-- C1 (amended): a message whose payload fails to decode panics the consume
thread — the loop aborts with the rest of the stream unprocessed — but the
message's payload byte length has already been added to `totalBytes` (the
size update precedes the decode `unwrap`), and the message is not in the
captured set. -/
theorem decode_failure_panics_counts_bytes (decode : List Nat → Option Value)
    (dl : Nat) (st : LoopState) (p : List Nat) (t : Nat) (rest : List (Item × Nat))
    (h : decode p = none) :
    consumeRun decode dl st ((Item.msg p, t) :: rest) =
      (Outcome.panicked Panic.decodeError { st with size := st.size + p.length },
        [(Item.msg p, t)]) := by
  rw [consumeRun_cons]
  simp only [procItem, processMsg_decodeError decode st p h]

theorem decode_failure_panics_counts_bytes_witness :
    consumeRun (fun _ => none) 10 initState [(Item.msg [1, 2, 3], 0)] =
      (Outcome.panicked Panic.decodeError
          { initState with size := initState.size + [1, 2, 3].length },
        [(Item.msg [1, 2, 3], 0)]) :=
  decode_failure_panics_counts_bytes (fun _ => none) 10 initState [1, 2, 3] 0 [] rfl

/-- A payload the loop survives: it decodes, the value is an array, and every
element is an object (so every `unwrap` on the message path succeeds). -/
def goodPayloadB (decode : List Nat → Option Value) (payload : List Nat) : Bool :=
  match decode payload with
  | none => false
  | some v =>
    match v.asArray with
    | none => false
    | some xs => xs.all (fun x => x.asObject.isSome)

/-- An item the loop survives: a message with a good payload, or a loss
signal whose reconnect attempts eventually succeed. -/
def goodItemB (decode : List Nat → Option Value) : Item → Bool
  | .msg payload => goodPayloadB decode payload
  | .loss attempts => attempts.any (fun a => a)

/-- If some reconnect attempt succeeds, the reconnect loop exits. -/
theorem reconnectLoop_isSome_of_any (attempts : List Bool) (r : Nat)
    (h : attempts.any (fun a => a) = true) :
    (reconnectLoop attempts r).isSome = true := by
  induction attempts generalizing r with
  | nil => simp at h
  | cons a rest ih =>
    cases a with
    | true => simp [reconnectLoop]
    | false =>
      simp only [List.any_cons, Bool.or_eq_true] at h
      rcases h with h | h
      · simp at h
      · have hs := ih (r + 1) h
        simp only [reconnectLoop, if_neg (by simp : ¬false = true)]
        cases hrec : reconnectLoop rest (r + 1) with
        | none => rw [hrec] at hs; simp at hs
        | some out =>
          obtain ⟨a, b, c⟩ := out
          simp

/-- A good payload makes `processMsg` succeed. -/
theorem processMsg_isOk_of_good (decode : List Nat → Option Value) (st : LoopState)
    (p : List Nat) (h : goodPayloadB decode p = true) :
    ∃ st', processMsg decode st p = .ok st' := by
  unfold goodPayloadB at h
  split at h
  · simp at h
  · rename_i v hv
    split at h
    · simp at h
    · rename_i xs hxs
      exact ⟨_, processMsg_good decode st p v xs hv hxs h⟩

/-- C2 (amended): message content CAN terminate the loop — a payload that
fails to decode, or decodes to anything other than an array of objects,
panics the consume thread (see the counterexample) — but for streams whose
messages are all arrays of objects and whose loss signals all reconnect, the
loop never terminates because of content: it ends only via the deadline
break or the stream ending, in state `done`. -/
theorem good_messages_never_terminate_loop (decode : List Nat → Option Value)
    (dl : Nat) (st : LoopState) (items : List (Item × Nat))
    (h : items.all (fun x => goodItemB decode x.1) = true) :
    ∃ st', (consumeRun decode dl st items).1 = Outcome.done st' := by
  induction items generalizing st with
  | nil => exact ⟨st, rfl⟩
  | cons hd rest ih =>
    obtain ⟨it, t⟩ := hd
    simp only [List.all_cons, Bool.and_eq_true] at h
    obtain ⟨hit, hrest⟩ := h
    rw [consumeRun_cons]
    cases it with
    | msg p =>
      simp only [goodItemB] at hit
      obtain ⟨st', hst'⟩ := processMsg_isOk_of_good decode st p hit
      simp only [procItem, hst']
      by_cases hdl : dl < t
      · simp only [if_pos hdl]
        exact ⟨st', rfl⟩
      · simp only [if_neg hdl]
        exact ih st' hrest
    | loss attempts =>
      simp only [goodItemB] at hit
      have hsome := reconnectLoop_isSome_of_any attempts st.rconn_attempt hit
      cases hrec : reconnectLoop attempts st.rconn_attempt with
      | none => rw [hrec] at hsome; simp at hsome
      | some out =>
        obtain ⟨r, logs, sleeps⟩ := out
        simp only [procItem, hrec]
        by_cases hdl : dl < t
        · simp only [if_pos hdl]
          exact ⟨_, rfl⟩
        · simp only [if_neg hdl]
          exact ih _ hrest

theorem good_messages_never_terminate_loop_witness :
    ∃ st', (consumeRun (fun _ => some (Value.arr [])) 10 initState
      [(Item.msg [123], 0), (Item.loss [false, true], 1)]).1 = Outcome.done st' :=
  good_messages_never_terminate_loop (fun _ => some (Value.arr [])) 10 initState
    [(Item.msg [123], 0), (Item.loss [false, true], 1)] (by decide)

/-- C2 counterexample: message content terminates the loop.  A payload that
decodes to the JSON number 5 (not an array) makes the loop abort by panic on
its first message, far from the deadline and with the stream not exhausted. -/
theorem message_content_can_terminate_loop_cex :
    (consumeRun (fun _ => some (Value.num 5)) 10 initState
        [(Item.msg [53], 0), (Item.msg [53], 1)]).1 =
      Outcome.panicked Panic.notArray ⟨[Value.num 5], 1, 0, 0⟩ := rfl

/-- The spec's `SessionStats` abstraction.  The source keeps no separate
message counter: `messageCount` is derived from the captured set as
`res.len()` (main.rs lines 186 and 189). -/
structure SessionStats where
  messageCount : Nat
  totalBytes : Nat
  totalTagCount : Nat

/-- The statistics the controller reads off a loop state. -/
def sessionStats (st : LoopState) : SessionStats :=
  ⟨st.res.length, st.size, st.total_tags⟩

/-- Whether a stream element is a message (as opposed to a loss signal). -/
def isMsgB : Item → Bool
  | .msg _ => true
  | .loss _ => false

/-- A successful `processMsg` appends exactly one record. -/
theorem processMsg_res_length_ok (decode : List Nat → Option Value) (st : LoopState)
    (p : List Nat) (st' : LoopState) (h : processMsg decode st p = .ok st') :
    st'.res.length = st.res.length + 1 := by
  simp only [processMsg] at h
  split at h
  · simp at h
  · split at h
    · simp at h
    · split at h
      · simp at h
      · injection h with h
        rw [← h]
        simp

/-- In a run that completes, the captured set grows by exactly the number of
message elements processed (every processed message was captured). -/
theorem consumeRun_done_res_length (decode : List Nat → Option Value) (dl : Nat)
    (items : List (Item × Nat)) : ∀ st st' pr,
    consumeRun decode dl st items = (Outcome.done st', pr) →
    st'.res.length = st.res.length + pr.countP (fun x => isMsgB x.1) := by
  induction items with
  | nil =>
    intro st st' pr h
    rw [consumeRun_nil] at h
    simp only [Prod.mk.injEq, Outcome.done.injEq] at h
    obtain ⟨h1, h2⟩ := h
    subst h1
    rw [← h2]
    simp
  | cons hd rest ih =>
    intro st st' pr h
    obtain ⟨it, t⟩ := hd
    rw [consumeRun_cons] at h
    cases it with
    | msg p =>
      cases hm : processMsg decode st p with
      | error e =>
        obtain ⟨pa, st''⟩ := e
        simp only [procItem, hm] at h
        simp at h
      | ok st'' =>
        have hlen := processMsg_res_length_ok decode st p st'' hm
        simp only [procItem, hm] at h
        by_cases hdl : dl < t
        · rw [if_pos hdl] at h
          simp only [Prod.mk.injEq, Outcome.done.injEq] at h
          obtain ⟨h1, h2⟩ := h
          subst h1
          rw [← h2]
          simp [List.countP_cons, isMsgB]
          omega
        · rw [if_neg hdl] at h
          simp only [Prod.mk.injEq] at h
          obtain ⟨h1, h2⟩ := h
          have h' : consumeRun decode dl st'' rest =
              (Outcome.done st', (consumeRun decode dl st'' rest).2) := by
            rw [← h1]
          have hih := ih st'' st' (consumeRun decode dl st'' rest).2 h'
          rw [← h2, List.countP_cons]
          simp only [isMsgB] at hih ⊢
          simp at hih ⊢
          omega
    | loss attempts =>
      cases hrec : reconnectLoop attempts st.rconn_attempt with
      | none =>
        simp only [procItem, hrec] at h
        simp at h
      | some out =>
        obtain ⟨r, logs, sleeps⟩ := out
        simp only [procItem, hrec] at h
        by_cases hdl : dl < t
        · rw [if_pos hdl] at h
          simp only [Prod.mk.injEq, Outcome.done.injEq] at h
          obtain ⟨h1, h2⟩ := h
          subst h1
          rw [← h2]
          simp [List.countP_cons, isMsgB]
        · rw [if_neg hdl] at h
          simp only [Prod.mk.injEq] at h
          obtain ⟨h1, h2⟩ := h
          have h' : consumeRun decode dl { st with rconn_attempt := r } rest =
              (Outcome.done st', (consumeRun decode dl { st with rconn_attempt := r } rest).2) := by
            rw [← h1]
          have hih := ih { st with rconn_attempt := r } st'
            (consumeRun decode dl { st with rconn_attempt := r } rest).2 h'
          simp only at hih
          rw [← h2, List.countP_cons]
          simp only [isMsgB] at hih ⊢
          simp at hih ⊢
          omega

/-- C6: after the loop stops (for any completed run, whatever mixture of
messages and loss signals it processed), the derived statistics'
`messageCount` equals the length of the captured set — the source derives
the count from the captured set itself, so the invariant holds by
construction — and that length is the initial length plus the number of
message elements processed. -/
theorem messageCount_equals_captured_length (decode : List Nat → Option Value)
    (dl : Nat) (st st' : LoopState) (items pr : List (Item × Nat))
    (h : consumeRun decode dl st items = (Outcome.done st', pr)) :
    (sessionStats st').messageCount = st'.res.length ∧
    st'.res.length = st.res.length + pr.countP (fun x => isMsgB x.1) :=
  ⟨rfl, consumeRun_done_res_length decode dl items st st' pr h⟩

theorem messageCount_equals_captured_length_witness :
    (sessionStats ⟨[Value.arr []], 1, 0, 0⟩).messageCount =
      (⟨[Value.arr []], 1, 0, 0⟩ : LoopState).res.length ∧
    (⟨[Value.arr []], 1, 0, 0⟩ : LoopState).res.length =
      initState.res.length +
        List.countP (fun x => isMsgB x.1) [(Item.msg [1], 0), (Item.loss [true], 3)] :=
  messageCount_equals_captured_length (fun _ => some (Value.arr [])) 10 initState
    ⟨[Value.arr []], 1, 0, 0⟩ [(Item.msg [1], 0), (Item.loss [true], 3)]
    [(Item.msg [1], 0), (Item.loss [true], 3)] rfl

/-- Rust's `as i32` narrowing cast from an unsigned integer (`usize`/`u64`):
wrap modulo 2^32 and reinterpret as two's-complement. -/
def usizeToI32 (n : Nat) : Int :=
  if n % 2 ^ 32 < 2 ^ 31 then ((n % 2 ^ 32 : Nat) : Int)
  else ((n % 2 ^ 32 : Nat) : Int) - 2 ^ 32

/-- The `Output` statistics row (main.rs lines 22-38).  `mqtt_throughput`
holds the numeric bytes-per-second quotient; the source formats it through
`HumanBytes` into a string. -/
structure Output where
  subscribed_topics : Int
  total_messages : Int
  total_tags : Int
  capture_duration : Int
  mqtt_mps : Int
  mqtt_tps : Int
  mqtt_throughput : Nat
deriving DecidableEq

/-- Building the statistics row (main.rs lines 184-192) from the totals and
`duration.as_secs()`.  The three `u64` divisions by `durSecs` panic in Rust
when `durSecs` is zero ("attempt to divide by zero"); the construction
succeeds otherwise. -/
def mkOutput (topicsLen resLen totalTags size durSecs : Nat) : Except Panic Output :=
  if durSecs = 0 then .error .divByZero
  else .ok
    { subscribed_topics := usizeToI32 topicsLen
      total_messages := usizeToI32 resLen
      total_tags := usizeToI32 totalTags
      capture_duration := usizeToI32 durSecs
      mqtt_mps := usizeToI32 (resLen / durSecs)
      mqtt_tps := usizeToI32 (totalTags / durSecs)
      mqtt_throughput := size / durSecs }

/-- C4 counterexample: deriving the statistics with elapsed seconds = 0 does
not produce a sentinel — it panics with a division-by-zero error. -/
theorem derive_zero_elapsed_panics_cex :
    mkOutput 2 5 7 80 0 = Except.error Panic.divByZero := rfl

/-- C4 (amended): with elapsed seconds = 0 the statistics derivation panics
from division by zero (no sentinel is produced); with positive elapsed
seconds it returns the rates as integer divisions of the totals. -/
theorem derive_division_behavior (topicsLen resLen totalTags size d : Nat) :
    mkOutput topicsLen resLen totalTags size 0 = Except.error Panic.divByZero ∧
    (0 < d →
      mkOutput topicsLen resLen totalTags size d = Except.ok
        { subscribed_topics := usizeToI32 topicsLen
          total_messages := usizeToI32 resLen
          total_tags := usizeToI32 totalTags
          capture_duration := usizeToI32 d
          mqtt_mps := usizeToI32 (resLen / d)
          mqtt_tps := usizeToI32 (totalTags / d)
          mqtt_throughput := size / d }) := by
  constructor
  · rfl
  · intro hd
    unfold mkOutput
    rw [if_neg (Nat.pos_iff_ne_zero.mp hd)]

theorem derive_division_behavior_witness :
    mkOutput 2 5 7 80 2 = Except.ok
      { subscribed_topics := usizeToI32 2
        total_messages := usizeToI32 5
        total_tags := usizeToI32 7
        capture_duration := usizeToI32 2
        mqtt_mps := usizeToI32 (5 / 2)
        mqtt_tps := usizeToI32 (7 / 2)
        mqtt_throughput := 80 / 2 } :=
  (derive_division_behavior 2 5 7 80 2).2 (by decide)
